import Mathlib

set_option maxRecDepth 100000

/-!
Verification of the PDF print-production core.

A shallow embedding, over exact rational arithmetic, of the page-recomposition
engine of this repository: the geometry planner, background sampler, mark
renderer, page composer and document assembler of `app.py`, together with the
stand-alone crop-mark builder of `pdf_print_production.py`.

Real-number quantities of the source (Python floats) are modelled as `ℚ`;
byte strings are modelled as lists of latin-1 characters (the source decodes
content bytes with the bijective latin-1 codec before scanning them).
-/

/-! ## Python float formatting (`f"{x:.4f}"`, `f"{x:.6f}"`)

Fixed-point formatting rounds to the nearest representable value with ties to
even, keeps the sign of negative values, prints at least one integer digit and
exactly `d` fractional digits. -/

/-- Round to the nearest integer, ties to even. -/
def roundHalfEven (q : ℚ) : ℤ :=
  let f := ⌊q⌋
  if q - f < 1/2 then f
  else if q - f > 1/2 then f + 1
  else if f % 2 = 0 then f else f + 1

/-- Left-pad a numeral string with zeros to width `k`. -/
def padLeftZeros (k : ℕ) (s : String) : String :=
  String.mk (List.replicate (k - s.length) '0') ++ s

/-- Python fixed-point formatting with `d` fractional digits. -/
def fmtFixed (d : ℕ) (q : ℚ) : String :=
  let n := (roundHalfEven (|q| * (10 : ℚ) ^ d)).toNat
  (if q < 0 then "-" else "") ++ toString (n / 10 ^ d) ++ "." ++
    padLeftZeros d (toString (n % 10 ^ d))

/-- Python formatting with 4 fractional digits. -/
def fmt4 : ℚ → String := fmtFixed 4

/-- Python formatting with 6 fractional digits. -/
def fmt6 : ℚ → String := fmtFixed 6

/-! ## Model of the regular-expression scanning in `detect_background_color`

The three patterns used by the source are
`([\d.]+)\s+([\d.]+)\s+([\d.]+)\s+rg`, `([\d.]+)\s+([\d.]+)\s+([\d.]+)\s+scn?`
and `([\d.]+)\s+g\b`, searched with `re.search` (leftmost match).  Because in
each pattern the adjacent character classes `[\d.]` and `\s` are disjoint and
the tails are literals, greedy maximal munch is a complete matching strategy,
so the model below agrees with the backtracking engine on these patterns. -/

/-- The class `[\d.]` (on latin-1 text `\d` matches only the ASCII digits). -/
def isDigitDot (c : Char) : Bool := c.isDigit || c = '.'

/-- The characters of the latin-1 range matched by Python's `\s`. -/
def isPySpace (c : Char) : Bool :=
  c = ' ' || c = '\t' || c = '\n' || c = '\r' || c = '\x0b' || c = '\x0c' ||
  c = '\x1c' || c = '\x1d' || c = '\x1e' || c = '\x1f' || c = '\x85' || c = '\xa0'

/-- The characters of the latin-1 range matched by Python's `\w`
    (used for the word boundary `\b`). -/
def isPyWord (c : Char) : Bool :=
  c.isAlpha || c.isDigit || c = '_' || c = '\xaa' || c = '\xb5' || c = '\xba' ||
  ('\xc0' ≤ c && c ≤ '\xd6') || ('\xd8' ≤ c && c ≤ '\xf6') || ('\xf8' ≤ c && c ≤ '\xff')

/-- Greedy one-or-more match of a character class: the matched characters and
    the rest of the input. -/
def munch (p : Char → Bool) (s : List Char) : Option (List Char × List Char) :=
  let pre := s.takeWhile p
  if pre.isEmpty then none else some (pre, s.drop pre.length)

/-- Match one literal character. -/
def lit (c : Char) : List Char → Option (List Char)
  | [] => none
  | x :: rest => if x = c then some rest else none

/-- Match `([\d.]+)\s+([\d.]+)\s+([\d.]+)\s+rg` at the start of the input,
    returning the three captured groups. -/
def matchRG (s : List Char) : Option (List Char × List Char × List Char) := do
  let (g1, s1) ← munch isDigitDot s
  let (_, s2) ← munch isPySpace s1
  let (g2, s3) ← munch isDigitDot s2
  let (_, s4) ← munch isPySpace s3
  let (g3, s5) ← munch isDigitDot s4
  let (_, s6) ← munch isPySpace s5
  let s7 ← lit 'r' s6
  let _ ← lit 'g' s7
  pure (g1, g2, g3)

/-- Match `([\d.]+)\s+([\d.]+)\s+([\d.]+)\s+scn?` at the start of the input
    (the trailing `n?` is irrelevant to success and to the groups). -/
def matchSCN (s : List Char) : Option (List Char × List Char × List Char) := do
  let (g1, s1) ← munch isDigitDot s
  let (_, s2) ← munch isPySpace s1
  let (g2, s3) ← munch isDigitDot s2
  let (_, s4) ← munch isPySpace s3
  let (g3, s5) ← munch isDigitDot s4
  let (_, s6) ← munch isPySpace s5
  let s7 ← lit 's' s6
  let _ ← lit 'c' s7
  pure (g1, g2, g3)

/-- Match `([\d.]+)\s+g\b` at the start of the input. -/
def matchGray (s : List Char) : Option (List Char) := do
  let (g1, s1) ← munch isDigitDot s
  let (_, s2) ← munch isPySpace s1
  let s3 ← lit 'g' s2
  match s3 with
  | [] => pure g1
  | c :: _ => if isPyWord c then none else pure g1

/-- Model of `re.search`: try the pattern at each start position, leftmost match wins. -/
def searchFrom {α : Type} (m : List Char → Option α) : List Char → Option α
  | [] => m []
  | c :: rest =>
    match m (c :: rest) with
    | some r => some r
    | none => searchFrom m rest

/-- Numeric value of a digit string. -/
def digitsVal (ds : List Char) : ℕ :=
  ds.foldl (fun n c => 10 * n + (c.toNat - 48)) 0

/-- Python `float()` applied to a string matched by `[\d.]+`: it succeeds
    exactly when the string has at most one dot and at least one digit
    (`float(".")` and `float("1.2.3")` raise `ValueError`).  The value is
    taken exactly in `ℚ`. -/
def pyFloat (g : List Char) : Option ℚ :=
  match g.splitOn '.' with
  | [ip] => if ip.isEmpty then none else some (digitsVal ip : ℚ)
  | [ip, fp] =>
      if ip.isEmpty && fp.isEmpty then none
      else some ((digitsVal ip : ℚ) + (digitsVal fp : ℚ) / (10 : ℚ) ^ fp.length)
  | _ => none

/-! ## Data model -/

/-- A 4-number PDF rectangle `[x0 y0 x1 y1]`. -/
structure Rect where
  x0 : ℚ
  y0 : ℚ
  x1 : ℚ
  y1 : ℚ
deriving DecidableEq, Repr

/-- Safe margins, in inches. -/
structure Margins where
  left : ℚ
  right : ℚ
  top : ℚ
  bottom : ℚ
deriving DecidableEq, Repr

/-- An input page: geometry boxes, rotation, raw content bytes (already
    concatenated across a `Contents` array and decoded as latin-1). -/
structure Page where
  mediaBox : Rect
  cropBox : Option Rect
  trimBox : Option Rect
  bleedBox : Option Rect
  rotate : Option ℤ
  contents : Option (List Char)
deriving DecidableEq, Repr

/-- A page after composition: the new content stream (the list of chunks that
    `"\n".join` turns into the stream bytes), the boxes written by the
    composer, and the reported metrics used by the claims. -/
structure ComposedPage where
  ops : List String
  mediaBox : Rect
  trimBox : Rect
  bleedBox : Rect
  cropBox : Option Rect
  rotate : Option ℤ
  flipped : Bool
  scale : ℚ
deriving DecidableEq, Repr

/-- The errors the core can raise: the two `ValueError`s of the source
    (non-positive safe area; empty document after deletion) and Python's
    `ZeroDivisionError` for degenerate zero-width/height pages. -/
inductive AppError where
  | layoutError
  | emptyError
  | zeroDivisionError
deriving DecidableEq, Repr

deriving instance DecidableEq for Except

/-- Background style switch of the source (`"auto"` or `"blue_gradient"`). -/
inductive BgStyle where
  | auto
  | blue_gradient
deriving DecidableEq, Repr

/-! ## `app.py` -/

namespace App

def PTS_PER_INCH : ℚ := 72
def MARK_OFFSET : ℚ := 3
def MARK_LENGTH : ℚ := 18

/-- Source function `get_page_dimensions`: `(x0, y0, width, height)` from the MediaBox. -/
def get_page_dimensions (page : Page) : ℚ × ℚ × ℚ × ℚ :=
  (page.mediaBox.x0, page.mediaBox.y0,
   page.mediaBox.x1 - page.mediaBox.x0, page.mediaBox.y1 - page.mediaBox.y0)

/-- Source function `detect_background_color`, from the raw (decoded) content bytes: scan the
    leading 3000 characters for the first fill-colour directive, in priority
    order `rg`, then `sc`/`scn`, then `g`; a parse failure of a captured group
    (`float` raising `ValueError`) falls into the enclosing `except` and
    yields white, as does no match at all. -/
def detect_background_from_bytes (raw : List Char) : ℚ × ℚ × ℚ :=
  let early := raw.take 3000
  match searchFrom matchRG early with
  | some (g1, g2, g3) =>
    match pyFloat g1, pyFloat g2, pyFloat g3 with
    | some a, some b, some c => (a, b, c)
    | _, _, _ => (1, 1, 1)
  | none =>
    match searchFrom matchSCN early with
    | some (g1, g2, g3) =>
      match pyFloat g1, pyFloat g2, pyFloat g3 with
      | some a, some b, some c => (a, b, c)
      | _, _, _ => (1, 1, 1)
    | none =>
      match searchFrom matchGray early with
      | some g1 =>
        match pyFloat g1 with
        | some v => (v, v, v)
        | none => (1, 1, 1)
      | none => (1, 1, 1)

/-- Source function `detect_background_color` on a page: a page with no `Contents` is white. -/
def detect_background_color (page : Page) : ℚ × ℚ × ℚ :=
  match page.contents with
  | none => (1, 1, 1)
  | some raw => detect_background_from_bytes raw

/-- Source function `build_trim_marks_stream` of `app.py`.  The two weight lines are the
    f-strings `f"{WHITE_WEIGHT} w"` and `f"{BLACK_WEIGHT} w"` with
    `WHITE_WEIGHT = 1.0` and `BLACK_WEIGHT = 0.75`, which Python renders as
    `"1.0 w"` and `"0.75 w"`. -/
def build_trim_marks_stream (trim_x trim_y trim_w trim_h : ℚ) : String :=
  let corners : List (ℚ × ℚ × ℚ × ℚ) :=
    [(trim_x, trim_y, -1, -1),
     (trim_x + trim_w, trim_y, 1, -1),
     (trim_x + trim_w, trim_y + trim_h, 1, 1),
     (trim_x, trim_y + trim_h, -1, 1)]
  let segs : List String := corners.flatMap (fun c =>
    let cx := c.1
    let cy := c.2.1
    let hdir := c.2.2.1
    let vdir := c.2.2.2
    let hx_s := cx + MARK_OFFSET * hdir
    let hx_e := cx + (MARK_OFFSET + MARK_LENGTH) * hdir
    let vy_s := cy + MARK_OFFSET * vdir
    let vy_e := cy + (MARK_OFFSET + MARK_LENGTH) * vdir
    [fmt4 hx_s ++ " " ++ fmt4 cy ++ " m " ++ fmt4 hx_e ++ " " ++ fmt4 cy ++ " l S",
     fmt4 cx ++ " " ++ fmt4 vy_s ++ " m " ++ fmt4 cx ++ " " ++ fmt4 vy_e ++ " l S"])
  String.intercalate "\n"
    (["q"] ++ ["1.0 w", "1 1 1 RG", "2 J"] ++ segs ++
      ["0.75 w", "0 0 0 RG", "2 J"] ++ segs ++ ["Q"])

/-- Source function `compute_trim_height`: derive the trim height (inches) from the original
    aspect ratio and the trim width.  The only way this function can fail in
    the source is Python's `ZeroDivisionError` when `orig_w = 0`; it performs
    no check on the sign of the safe width. -/
def compute_trim_height (orig_w orig_h : ℚ) (trim_width_in : ℚ) (margins : Margins) :
    Except AppError ℚ :=
  let trim_w_pt := trim_width_in * PTS_PER_INCH
  let ml := margins.left * PTS_PER_INCH
  let mr := margins.right * PTS_PER_INCH
  let mt := margins.top * PTS_PER_INCH
  let mb := margins.bottom * PTS_PER_INCH
  let safe_w := trim_w_pt - ml - mr
  if orig_w = 0 then .error .zeroDivisionError
  else
    let scale := safe_w / orig_w
    let scaled_h := orig_h * scale
    let trim_h_pt := scaled_h + mt + mb
    .ok (trim_h_pt / PTS_PER_INCH)

/-- The geometry computed at the head of `process_page`
    (`app.py` lines 169-199). -/
structure Layout where
  bleed : ℚ
  trim_w : ℚ
  trim_h : ℚ
  media_w : ℚ
  media_h : ℚ
  orig_x0 : ℚ
  orig_y0 : ℚ
  orig_w : ℚ
  orig_h : ℚ
  ml : ℚ
  mr : ℚ
  mt : ℚ
  mb : ℚ
  safe_w : ℚ
  safe_h : ℚ
  scale : ℚ
  scaled_w : ℚ
  scaled_h : ℚ
  safe_x0 : ℚ
  safe_y0 : ℚ
  x_off : ℚ
  y_off : ℚ

/-- The geometry plan of `process_page`: media box from trim plus bleed,
    rotation-compensated original size, safe area inside the margins, uniform
    fit scale, and centering offsets. -/
def computeLayout (page : Page) (trim_width_in trim_height_in bleed_in : ℚ)
    (margins : Margins) : Layout :=
  let bleed := bleed_in * PTS_PER_INCH
  let trim_w := trim_width_in * PTS_PER_INCH
  let trim_h := trim_height_in * PTS_PER_INCH
  let media_w := trim_w + 2 * bleed
  let media_h := trim_h + 2 * bleed
  let dims := get_page_dimensions page
  let ow := dims.2.2.1
  let oh := dims.2.2.2
  let rotation := (page.rotate.getD 0) % 360
  let orig_w := if rotation = 90 ∨ rotation = 270 then oh else ow
  let orig_h := if rotation = 90 ∨ rotation = 270 then ow else oh
  let ml := margins.left * PTS_PER_INCH
  let mr := margins.right * PTS_PER_INCH
  let mt := margins.top * PTS_PER_INCH
  let mb := margins.bottom * PTS_PER_INCH
  let safe_w := trim_w - ml - mr
  let safe_h := trim_h - mt - mb
  let scale_x := safe_w / orig_w
  let scale_y := safe_h / orig_h
  let scale := min scale_x scale_y
  let scaled_w := orig_w * scale
  let scaled_h := orig_h * scale
  let safe_x0 := bleed + ml
  let safe_y0 := bleed + mb
  { bleed := bleed, trim_w := trim_w, trim_h := trim_h,
    media_w := media_w, media_h := media_h,
    orig_x0 := dims.1, orig_y0 := dims.2.1, orig_w := orig_w, orig_h := orig_h,
    ml := ml, mr := mr, mt := mt, mb := mb,
    safe_w := safe_w, safe_h := safe_h,
    scale := scale, scaled_w := scaled_w, scaled_h := scaled_h,
    safe_x0 := safe_x0, safe_y0 := safe_y0,
    x_off := safe_x0 + (safe_w - scaled_w) / 2,
    y_off := safe_y0 + (safe_h - scaled_h) / 2 }

/-- The operator line of the f-string
    `f"-1 0 0 -1 {media_w:.4f} {media_h:.4f} cm"`: the 180-degree rotation
    about the media-box centre. -/
def flip_cm_line (media_w media_h : ℚ) : String :=
  "-1 0 0 -1 " ++ fmt4 media_w ++ " " ++ fmt4 media_h ++ " cm"

/-- Source function `process_page`: recompose one page.  Raises `layoutError` when the safe
    area is non-positive; `zeroDivisionError` models the Python division by a
    zero original dimension at the scale computation.  The result records the
    new content-stream chunks (in the order `cl` is built: optional flip
    opener, background, relocated original content, crop marks, optional flip
    closer), the boxes written to the page object, and the removal of the
    CropBox and Rotate entries. -/
def process_page (page : Page) (trim_width_in trim_height_in bleed_in : ℚ)
    (margins : Margins) (bg_color : Option (ℚ × ℚ × ℚ)) (bg_style : BgStyle)
    (flip : Bool) : Except AppError ComposedPage :=
  let L := computeLayout page trim_width_in trim_height_in bleed_in margins
  if L.safe_w ≤ 0 ∨ L.safe_h ≤ 0 then .error .layoutError
  else if L.orig_w = 0 ∨ L.orig_h = 0 then .error .zeroDivisionError
  else
    let rgb := match bg_color with
      | none => detect_background_color page
      | some c => c
    let flipOpen : List String :=
      if flip then ["q", flip_cm_line L.media_w L.media_h] else []
    let bgOps : List String :=
      match bg_style with
      | .blue_gradient =>
          ["q", "0 0 " ++ fmt4 L.media_w ++ " " ++ fmt4 L.media_h ++ " re W n",
           "/BlueGrad sh", "Q"]
      | .auto =>
          ["q", fmt6 rgb.1 ++ " " ++ fmt6 rgb.2.1 ++ " " ++ fmt6 rgb.2.2 ++ " rg",
           "0 0 " ++ fmt4 L.media_w ++ " " ++ fmt4 L.media_h ++ " re f", "Q"]
    let placeOps : List String :=
      ["q", fmt6 L.scale ++ " 0 0 " ++ fmt6 L.scale ++ " " ++ fmt4 L.x_off ++ " " ++
         fmt4 L.y_off ++ " cm", "/OrigPage Do", "Q"]
    let marks := build_trim_marks_stream L.bleed L.bleed L.trim_w L.trim_h
    let flipClose : List String := if flip then ["Q"] else []
    .ok { ops := flipOpen ++ bgOps ++ placeOps ++ [marks] ++ flipClose,
          mediaBox := ⟨0, 0, L.media_w, L.media_h⟩,
          trimBox := ⟨L.bleed, L.bleed, L.bleed + L.trim_w, L.bleed + L.trim_h⟩,
          bleedBox := ⟨0, 0, L.media_w, L.media_h⟩,
          cropBox := none, rotate := none, flipped := flip, scale := L.scale }

/-- The blank page synthesized by `add_blank_page`: a media-box-sized white
    fill plus crop marks, with the same box rules as composed pages (the
    media box comes from pikepdf's `add_blank_page(page_size=(media_w,
    media_h))`, which creates a page with MediaBox `[0 0 media_w media_h]`,
    no CropBox and no Rotate entry). -/
def blankComposed (trim_width_in trim_height_in bleed_in : ℚ) : ComposedPage :=
  let bleed := bleed_in * PTS_PER_INCH
  let trim_w := trim_width_in * PTS_PER_INCH
  let trim_h := trim_height_in * PTS_PER_INCH
  let media_w := trim_w + 2 * bleed
  let media_h := trim_h + 2 * bleed
  { ops := ["q", "1 1 1 rg", "0 0 " ++ fmt4 media_w ++ " " ++ fmt4 media_h ++ " re f", "Q",
            build_trim_marks_stream bleed bleed trim_w trim_h],
    mediaBox := ⟨0, 0, media_w, media_h⟩,
    trimBox := ⟨bleed, bleed, bleed + trim_w, bleed + trim_h⟩,
    bleedBox := ⟨0, 0, media_w, media_h⟩,
    cropBox := none, rotate := none, flipped := false, scale := 1 }

/-- The saved content stream of a composed page: `"\n".join` of its chunks. -/
def pageContent (cp : ComposedPage) : String := String.intercalate "\n" cp.ops

/-- Source function `_flip_existing_page`: wrap the current content bytes of an
    already-composed page in one additional 180-degree rotation layer.  The
    bytes written by the source are
    `"q\n-1 0 0 -1 {media_w:.4f} {media_h:.4f} cm\n" + existing + "\nQ"`,
    which is exactly the join of the four chunks below.  Boxes are not
    touched. -/
def flip_existing_page (media_w media_h : ℚ) (cp : ComposedPage) : ComposedPage :=
  { cp with ops := ["q", flip_cm_line media_w media_h, pageContent cp, "Q"] }

/-- A page of the document between blank insertion and composition: either an
    original input page, or the blank page `add_blank_page` just inserted
    (which the per-page loop recognises positionally as
    `insert_blank_after_cover and i == 1`). -/
inductive DocPage where
  | orig (p : Page)
  | blank (bp : ComposedPage)

/-- The per-page loop of `process_pdf_file`: page `i` is composed with
    `flip = flip_even_pages and (i % 2 == 1)`; the inserted blank page is
    not recomposed, it only receives `_flip_existing_page` when its final
    position requires a flip. -/
def composeAll (trim_width_in trim_height_in bleed_in : ℚ) (margins : Margins)
    (bg_style : BgStyle) (flip_even_pages : Bool) :
    ℕ → List DocPage → Except AppError (List ComposedPage)
  | _, [] => .ok []
  | i, DocPage.blank bp :: rest =>
    let f := flip_even_pages && decide (i % 2 = 1)
    let media_w := trim_width_in * PTS_PER_INCH + 2 * (bleed_in * PTS_PER_INCH)
    let media_h := trim_height_in * PTS_PER_INCH + 2 * (bleed_in * PTS_PER_INCH)
    let out := { (if f then flip_existing_page media_w media_h bp else bp) with flipped := f }
    match composeAll trim_width_in trim_height_in bleed_in margins bg_style
        flip_even_pages (i + 1) rest with
    | .error e => .error e
    | .ok rest_out => .ok (out :: rest_out)
  | i, DocPage.orig p :: rest =>
    let f := flip_even_pages && decide (i % 2 = 1)
    match process_page p trim_width_in trim_height_in bleed_in margins none bg_style f with
    | .error e => .error e
    | .ok cp =>
      match composeAll trim_width_in trim_height_in bleed_in margins bg_style
          flip_even_pages (i + 1) rest with
      | .error e => .error e
      | .ok rest_out => .ok (cp :: rest_out)

/-- One iteration of the deletion loop:
    `if 0 <= idx < len(pdf.pages): del pdf.pages[idx]`. -/
def deleteStep (ps : List Page) (idx : ℤ) : List Page :=
  if 0 ≤ idx ∧ idx < (ps.length : ℤ) then ps.eraseIdx idx.toNat else ps

/-- The deletion phase of `process_pdf_file`:
    `for idx in sorted(set(delete_pages), reverse=True)` — deduplicate,
    sort in descending order, delete valid indices one at a time. -/
def deletePages (ps : List Page) (delete_pages : List ℤ) : List Page :=
  (List.mergeSort delete_pages.dedup (fun a b => decide (b ≤ a))).foldl deleteStep ps

/-- Source function `process_pdf_file` up to (but not including) `pdf.save`: delete requested
    pages, fail on an empty document, derive the run's trim height from the
    first remaining page, optionally insert the blank page at index 1, and
    compose every page. -/
def processPdfFileRun (pages : List Page) (trim_width_in bleed_in : ℚ)
    (margins : Margins) (bg_style : BgStyle) (insert_blank_after_cover : Bool)
    (delete_pages : List ℤ) (flip_even_pages : Bool) :
    Except AppError (List ComposedPage) :=
  match deletePages pages delete_pages with
  | [] => .error .emptyError
  | first :: rest =>
    let dims := get_page_dimensions first
    let ow0 := dims.2.2.1
    let oh0 := dims.2.2.2
    let rotation := (first.rotate.getD 0) % 360
    let orig_w := if rotation = 90 ∨ rotation = 270 then oh0 else ow0
    let orig_h := if rotation = 90 ∨ rotation = 270 then ow0 else oh0
    match compute_trim_height orig_w orig_h trim_width_in margins with
    | .error e => .error e
    | .ok trim_height_in =>
      let doc : List DocPage :=
        if insert_blank_after_cover then
          DocPage.orig first ::
            DocPage.blank (blankComposed trim_width_in trim_height_in bleed_in) ::
            rest.map DocPage.orig
        else DocPage.orig first :: rest.map DocPage.orig
      composeAll trim_width_in trim_height_in bleed_in margins bg_style
        flip_even_pages 0 doc

/-- Source function `process_pdf_file` with the file system made explicit: the first component
    is the state of the output path (`pdf.save` runs only after every page has
    been composed; an exception propagates out before it). -/
def processPdfFile (pages : List Page) (trim_width_in bleed_in : ℚ)
    (margins : Margins) (bg_style : BgStyle) (insert_blank_after_cover : Bool)
    (delete_pages : List ℤ) (flip_even_pages : Bool) :
    Option (List ComposedPage) × Except AppError (List ComposedPage) :=
  match processPdfFileRun pages trim_width_in bleed_in margins bg_style
      insert_blank_after_cover delete_pages flip_even_pages with
  | .error e => (none, .error e)
  | .ok outs => (some outs, .ok outs)

/-- The specification's description of the deletion phase: the surviving
    pages are exactly those whose original 0-based index (counted from `i`)
    is not in the delete set, in their original order. -/
def survivingPages (delete_pages : List ℤ) : ℕ → List Page → List Page
  | _, [] => []
  | i, p :: rest =>
    if (i : ℤ) ∈ delete_pages then survivingPages delete_pages (i + 1) rest
    else p :: survivingPages delete_pages (i + 1) rest

end App

/-! ## `pdf_print_production.py` -/

namespace PrintProd

def PTS_PER_INCH : ℚ := 72
def MARK_OFFSET : ℚ := 3
def MARK_LENGTH : ℚ := 18

/-- Source function `build_trim_marks_stream` of `pdf_print_production.py`: dual-layer trim
    marks, white halo first (`WHITE_WEIGHT = 1.0`), black on top
    (`BLACK_WEIGHT = 0.75`), round caps, at the four trim-box corners. -/
def build_trim_marks_stream (trim_x trim_y trim_w trim_h : ℚ) : String :=
  let corners : List (ℚ × ℚ × ℚ × ℚ) :=
    [(trim_x, trim_y, -1, -1),
     (trim_x + trim_w, trim_y, 1, -1),
     (trim_x + trim_w, trim_y + trim_h, 1, 1),
     (trim_x, trim_y + trim_h, -1, 1)]
  let segs : List String := corners.flatMap (fun c =>
    let cx := c.1
    let cy := c.2.1
    let hdir := c.2.2.1
    let vdir := c.2.2.2
    let hx_start := cx + MARK_OFFSET * hdir
    let hx_end := cx + (MARK_OFFSET + MARK_LENGTH) * hdir
    let vy_start := cy + MARK_OFFSET * vdir
    let vy_end := cy + (MARK_OFFSET + MARK_LENGTH) * vdir
    [fmt4 hx_start ++ " " ++ fmt4 cy ++ " m " ++ fmt4 hx_end ++ " " ++ fmt4 cy ++ " l S",
     fmt4 cx ++ " " ++ fmt4 vy_start ++ " m " ++ fmt4 cx ++ " " ++ fmt4 vy_end ++ " l S"])
  String.intercalate "\n"
    (["q"] ++ ["1.0 w", "1 1 1 RG", "2 J"] ++ segs ++
      ["0.75 w", "0 0 0 RG", "2 J"] ++ segs ++ ["Q"])

end PrintProd

/-! ## Helper lemmas -/

/-- A positive factor times a fit-min scale does not exceed the first bound. -/
theorem mul_min_div_le_left (a b d : ℚ) (ha : 0 < a) : a * min (b / a) d ≤ b := by
  calc a * min (b / a) d ≤ a * (b / a) :=
        mul_le_mul_of_nonneg_left (min_le_left _ _) ha.le
    _ = b := by field_simp

/-- A positive factor times a fit-min scale does not exceed the second bound. -/
theorem mul_min_div_le_right (a b d : ℚ) (ha : 0 < a) : a * min d (b / a) ≤ b := by
  calc a * min d (b / a) ≤ a * (b / a) :=
        mul_le_mul_of_nonneg_left (min_le_right _ _) ha.le
    _ = b := by field_simp

/-- A parsed `[\d.]+` group is a nonnegative rational. -/
theorem pyFloat_nonneg {g : List Char} {q : ℚ} (h : pyFloat g = some q) : 0 ≤ q := by
  unfold pyFloat at h
  split at h
  · split at h
    · simp at h
    · rw [Option.some_inj] at h
      subst h
      exact Nat.cast_nonneg _
  · split at h
    · simp at h
    · rw [Option.some_inj] at h
      subst h
      positivity
  · simp at h

/-! ## C10 -/

/-- C10: the two crop-mark builders, `build_trim_marks_stream` of `app.py`
    and `build_trim_marks_stream` of `pdf_print_production.py`, return
    character-identical operator strings on every identical input
    `(trim_x, trim_y, trim_w, trim_h)`. -/
theorem c10_mark_builders_identical :
    ∀ trim_x trim_y trim_w trim_h : ℚ,
      App.build_trim_marks_stream trim_x trim_y trim_w trim_h =
        PrintProd.build_trim_marks_stream trim_x trim_y trim_w trim_h :=
  fun _ _ _ _ => rfl

/-! ## C3 -/

/-- C3, counterexample: `compute_trim_height` does not fail with a
    LayoutError on a non-positive safe width; at trim width 5 inches with
    3-inch left and right margins (safe width -72 points, non-positive) it
    returns the value -9/16 normally. -/
theorem c3_compute_trim_height_does_not_fail :
    App.compute_trim_height 720 405 5 ⟨3, 3, 0, 0⟩ = .ok (-(9 : ℚ)/16) ∧
      (5 : ℚ) * App.PTS_PER_INCH - 3 * App.PTS_PER_INCH - 3 * App.PTS_PER_INCH ≤ 0 := by
  refine ⟨by with_unfolding_all decide, by norm_num [App.PTS_PER_INCH]⟩

/-- C3, amended: the non-positive-safe-width check lives in the Page
    Composer, not in `compute_trim_height` — `process_page` fails with
    LayoutError whenever the safe width is less than or equal to zero. -/
theorem c3_layout_error_raised_by_composer
    (page : Page) (tw th b : ℚ) (m : Margins) (bgc : Option (ℚ × ℚ × ℚ))
    (bgs : BgStyle) (flip : Bool)
    (h : tw * App.PTS_PER_INCH - m.left * App.PTS_PER_INCH - m.right * App.PTS_PER_INCH ≤ 0) :
    App.process_page page tw th b m bgc bgs flip = .error .layoutError := by
  have hs : (App.computeLayout page tw th b m).safe_w ≤ 0 := h
  simp only [App.process_page]
  rw [if_pos (Or.inl hs)]

/-- C3, witness: at trim width 5 inches, left and right margins 3 inches
    each, the composer raises the LayoutError. -/
theorem c3_layout_error_witness :
    App.process_page ⟨⟨0, 0, 720, 405⟩, none, none, none, none, none⟩
        5 6 (1/8) ⟨3, 3, 0, 0⟩ none .auto false = .error .layoutError :=
  c3_layout_error_raised_by_composer _ 5 6 (1/8) ⟨3, 3, 0, 0⟩ none .auto false
    (by norm_num [App.PTS_PER_INCH])

/-! ## C4 -/

/-- C4: if the assembler run ends in a LayoutError or a DocumentEmptyError,
    `Document.save` was never invoked, so the output path holds nothing —
    no partial output is written. -/
theorem c4_no_output_on_error
    (pages : List Page) (tw b : ℚ) (m : Margins) (bgs : BgStyle)
    (ib : Bool) (dels : List ℤ) (fe : Bool)
    (h : (App.processPdfFile pages tw b m bgs ib dels fe).2 = .error .layoutError ∨
         (App.processPdfFile pages tw b m bgs ib dels fe).2 = .error .emptyError) :
    (App.processPdfFile pages tw b m bgs ib dels fe).1 = none := by
  simp only [App.processPdfFile] at *
  cases hr : App.processPdfFileRun pages tw b m bgs ib dels fe with
  | error e => simp [hr]
  | ok outs => rw [hr] at h; simp at h

/-- C4, witness: deleting the only page raises DocumentEmptyError and leaves
    the output path empty. -/
theorem c4_no_output_witness :
    (App.processPdfFile [⟨⟨0, 0, 720, 405⟩, none, none, none, none, none⟩]
        (21/2) (1/8) ⟨1/4, 1/4, 1/2, 1/2⟩ .auto false [0] true).2 =
      .error .emptyError ∧
    (App.processPdfFile [⟨⟨0, 0, 720, 405⟩, none, none, none, none, none⟩]
        (21/2) (1/8) ⟨1/4, 1/4, 1/2, 1/2⟩ .auto false [0] true).1 = none := by
  refine ⟨by with_unfolding_all decide,
    c4_no_output_on_error _ _ _ _ _ _ _ _ (Or.inr (by with_unfolding_all decide))⟩

/-! ## C9 -/

/-- C9: end-to-end on a one-page 720x405 input with trim width 700 points
    (700/72 inches), bleed 9 points (1/8 inch) and zero margins: the derived
    trim height is 393.75 points = 405/720 * 700, the composed page has
    MediaBox [0 0 718 411.75] and TrimBox [9 9 709 402.75], in exact
    rational arithmetic. -/
theorem c9_end_to_end :
    (App.processPdfFileRun [⟨⟨0, 0, 720, 405⟩, none, none, none, none, none⟩]
        (700/72) (1/8) ⟨0, 0, 0, 0⟩ .auto false [] true).map
        (fun l => l.map (fun cp => (cp.mediaBox, cp.trimBox))) =
      .ok [(⟨0, 0, 718, 411.75⟩, ⟨9, 9, 709, 402.75⟩)] ∧
    App.compute_trim_height 720 405 (700/72) ⟨0, 0, 0, 0⟩ = .ok (393.75 / 72) ∧
    (393.75 : ℚ) = 405 / 720 * 700 := by
  refine ⟨by with_unfolding_all decide, by with_unfolding_all decide, by norm_num⟩

/-! ## C7 -/

/-- C8, counterexample: the sampler does not clamp to [0, 1] — on the bytes
    `"5 5 5 rg"` it returns (5, 5, 5), whose components exceed 1. -/
theorem c8_counterexample_component_exceeds_one :
    App.detect_background_from_bytes ("5 5 5 rg".toList) = (5, 5, 5) ∧
      ¬ ((App.detect_background_from_bytes ("5 5 5 rg".toList)).1 ≤ 1) := by
  refine ⟨by with_unfolding_all decide, by with_unfolding_all decide⟩

/-- C8, amended: every component the sampler returns is a nonnegative
    rational (the matched operands are unsigned decimal literals and the
    fallback is white), but components are not clamped to be at most 1. -/
theorem c8_background_components_nonneg :
    (∀ raw : List Char,
      0 ≤ (App.detect_background_from_bytes raw).1 ∧
      0 ≤ (App.detect_background_from_bytes raw).2.1 ∧
      0 ≤ (App.detect_background_from_bytes raw).2.2) ∧
    (∀ page : Page,
      0 ≤ (App.detect_background_color page).1 ∧
      0 ≤ (App.detect_background_color page).2.1 ∧
      0 ≤ (App.detect_background_color page).2.2) := by
  have hbytes : ∀ raw : List Char,
      0 ≤ (App.detect_background_from_bytes raw).1 ∧
      0 ≤ (App.detect_background_from_bytes raw).2.1 ∧
      0 ≤ (App.detect_background_from_bytes raw).2.2 := by
    intro raw
    cases h1 : searchFrom matchRG (raw.take 3000) with
    | some t =>
      obtain ⟨g1, g2, g3⟩ := t
      cases h2 : pyFloat g1 with
      | none => simp [App.detect_background_from_bytes, h1, h2]
      | some a =>
        cases h3 : pyFloat g2 with
        | none => simp [App.detect_background_from_bytes, h1, h2, h3]
        | some b =>
          cases h4 : pyFloat g3 with
          | none => simp [App.detect_background_from_bytes, h1, h2, h3, h4]
          | some c =>
            simp only [App.detect_background_from_bytes, h1, h2, h3, h4]
            exact ⟨pyFloat_nonneg h2, pyFloat_nonneg h3, pyFloat_nonneg h4⟩
    | none =>
      cases h5 : searchFrom matchSCN (raw.take 3000) with
      | some t =>
        obtain ⟨g1, g2, g3⟩ := t
        cases h6 : pyFloat g1 with
        | none => simp [App.detect_background_from_bytes, h1, h5, h6]
        | some a =>
          cases h7 : pyFloat g2 with
          | none => simp [App.detect_background_from_bytes, h1, h5, h6, h7]
          | some b =>
            cases h8 : pyFloat g3 with
            | none => simp [App.detect_background_from_bytes, h1, h5, h6, h7, h8]
            | some c =>
              simp only [App.detect_background_from_bytes, h1, h5, h6, h7, h8]
              exact ⟨pyFloat_nonneg h6, pyFloat_nonneg h7, pyFloat_nonneg h8⟩
      | none =>
        cases h9 : searchFrom matchGray (raw.take 3000) with
        | some g1 =>
          cases h10 : pyFloat g1 with
          | none => simp [App.detect_background_from_bytes, h1, h5, h9, h10]
          | some v =>
            simp only [App.detect_background_from_bytes, h1, h5, h9, h10]
            exact ⟨pyFloat_nonneg h10, pyFloat_nonneg h10, pyFloat_nonneg h10⟩
        | none => simp [App.detect_background_from_bytes, h1, h5, h9]
  refine ⟨hbytes, ?_⟩
  intro page
  cases hc : page.contents with
  | none => simp [App.detect_background_color, hc]
  | some raw =>
    simp only [App.detect_background_color, hc]
    exact hbytes raw

/-! ## C1 -/

/-- C1: with a positive safe area (and a nondegenerate original page), the
    composer's scale factor is min(safeW/origW, safeH/origH) with
    safeW = trimW - marginL - marginR and safeH = trimH - marginT - marginB;
    the scaled content fits inside the safe area on both axes (never
    cropped); the same single factor drives both axes of the placement
    transform (no distortion); and the scaled box is centred in the safe
    rectangle, whose lower-left origin is
    (bleed + marginLeft, bleed + marginBottom). -/
theorem c1_uniform_fit_and_centering
    (page : Page) (tw th b : ℚ) (m : Margins) (L : App.Layout)
    (hL : L = App.computeLayout page tw th b m)
    (hw : 0 < L.safe_w) (hh : 0 < L.safe_h)
    (how : 0 < L.orig_w) (hoh : 0 < L.orig_h) :
    L.scale = min (L.safe_w / L.orig_w) (L.safe_h / L.orig_h) ∧
    L.safe_w = tw * App.PTS_PER_INCH - m.left * App.PTS_PER_INCH -
      m.right * App.PTS_PER_INCH ∧
    L.safe_h = th * App.PTS_PER_INCH - m.top * App.PTS_PER_INCH -
      m.bottom * App.PTS_PER_INCH ∧
    L.scaled_w = L.orig_w * L.scale ∧
    L.scaled_h = L.orig_h * L.scale ∧
    L.scaled_w ≤ L.safe_w ∧
    L.scaled_h ≤ L.safe_h ∧
    L.safe_x0 = b * App.PTS_PER_INCH + m.left * App.PTS_PER_INCH ∧
    L.safe_y0 = b * App.PTS_PER_INCH + m.bottom * App.PTS_PER_INCH ∧
    L.x_off - L.safe_x0 = (L.safe_x0 + L.safe_w) - (L.x_off + L.scaled_w) ∧
    L.y_off - L.safe_y0 = (L.safe_y0 + L.safe_h) - (L.y_off + L.scaled_h) ∧
    (∀ (bgc : Option (ℚ × ℚ × ℚ)) (bgs : BgStyle) (flip : Bool) (cp : ComposedPage),
      App.process_page page tw th b m bgc bgs flip = .ok cp →
      (fmt6 L.scale ++ " 0 0 " ++ fmt6 L.scale ++ " " ++ fmt4 L.x_off ++ " " ++
        fmt4 L.y_off ++ " cm") ∈ cp.ops ∧ cp.scale = L.scale) := by
  subst hL
  have hA : ¬ ((App.computeLayout page tw th b m).safe_w ≤ 0 ∨
      (App.computeLayout page tw th b m).safe_h ≤ 0) := by
    rw [not_or]
    exact ⟨not_le.mpr hw, not_le.mpr hh⟩
  have hB : ¬ ((App.computeLayout page tw th b m).orig_w = 0 ∨
      (App.computeLayout page tw th b m).orig_h = 0) := by
    rw [not_or]
    exact ⟨ne_of_gt how, ne_of_gt hoh⟩
  have e1 : (App.computeLayout page tw th b m).scaled_w =
      (App.computeLayout page tw th b m).orig_w *
        (App.computeLayout page tw th b m).scale := rfl
  have e2 : (App.computeLayout page tw th b m).scale =
      min ((App.computeLayout page tw th b m).safe_w /
            (App.computeLayout page tw th b m).orig_w)
          ((App.computeLayout page tw th b m).safe_h /
            (App.computeLayout page tw th b m).orig_h) := rfl
  have e3 : (App.computeLayout page tw th b m).scaled_h =
      (App.computeLayout page tw th b m).orig_h *
        (App.computeLayout page tw th b m).scale := rfl
  have ex : (App.computeLayout page tw th b m).x_off =
      (App.computeLayout page tw th b m).safe_x0 +
        ((App.computeLayout page tw th b m).safe_w -
          (App.computeLayout page tw th b m).scaled_w) / 2 := rfl
  have ey : (App.computeLayout page tw th b m).y_off =
      (App.computeLayout page tw th b m).safe_y0 +
        ((App.computeLayout page tw th b m).safe_h -
          (App.computeLayout page tw th b m).scaled_h) / 2 := rfl
  refine ⟨rfl, rfl, rfl, rfl, rfl, ?_, ?_, rfl, rfl, ?_, ?_, ?_⟩
  · rw [e1, e2]
    exact mul_min_div_le_left _ _ _ how
  · rw [e3, e2]
    exact mul_min_div_le_right _ _ _ hoh
  · rw [ex]; ring
  · rw [ey]; ring
  · intro bgc bgs flip cp hcp
    simp only [App.process_page] at hcp
    rw [if_neg hA, if_neg hB] at hcp
    rw [Except.ok.injEq] at hcp
    subst hcp
    exact ⟨by simp, rfl⟩

/-- C1, witness: original dimensions (100, 50) with safe area (200, 80)
    (trim 200x80 points, zero margins) give the uniform scale 8/5 = 1.6 and
    the scaled content fits the safe area. -/
theorem c1_witness :
    (App.computeLayout ⟨⟨0, 0, 100, 50⟩, none, none, none, none, none⟩
        (200/72) (80/72) (1/8) ⟨0, 0, 0, 0⟩).scale = 8/5 ∧
    (App.computeLayout ⟨⟨0, 0, 100, 50⟩, none, none, none, none, none⟩
        (200/72) (80/72) (1/8) ⟨0, 0, 0, 0⟩).scaled_w ≤
      (App.computeLayout ⟨⟨0, 0, 100, 50⟩, none, none, none, none, none⟩
        (200/72) (80/72) (1/8) ⟨0, 0, 0, 0⟩).safe_w ∧
    (App.computeLayout ⟨⟨0, 0, 100, 50⟩, none, none, none, none, none⟩
        (200/72) (80/72) (1/8) ⟨0, 0, 0, 0⟩).scaled_h ≤
      (App.computeLayout ⟨⟨0, 0, 100, 50⟩, none, none, none, none, none⟩
        (200/72) (80/72) (1/8) ⟨0, 0, 0, 0⟩).safe_h := by
  have h := c1_uniform_fit_and_centering
    ⟨⟨0, 0, 100, 50⟩, none, none, none, none, none⟩
    (200/72) (80/72) (1/8) ⟨0, 0, 0, 0⟩ _ rfl
    (by with_unfolding_all decide) (by with_unfolding_all decide)
    (by with_unfolding_all decide) (by with_unfolding_all decide)
  refine ⟨?_, h.2.2.2.2.2.1, h.2.2.2.2.2.2.1⟩
  rw [h.1]
  with_unfolding_all decide

/-! ## C2 -/

/-- C2: whenever `process_page` composes a page, the page's MediaBox becomes
    [0, 0, trimW + 2 bleed, trimH + 2 bleed], its TrimBox becomes
    [bleed, bleed, bleed + trimW, bleed + trimH] (so MediaBox dimensions are
    TrimBox dimensions plus twice the bleed on both axes), its BleedBox
    equals its MediaBox, and CropBox and Rotate are absent; the synthesized
    blank page of `add_blank_page` obeys the same box rules. -/
theorem c2_composed_page_boxes
    (page : Page) (tw th b : ℚ) (m : Margins) (bgc : Option (ℚ × ℚ × ℚ))
    (bgs : BgStyle) (flip : Bool)
    (hw : 0 < tw * App.PTS_PER_INCH - m.left * App.PTS_PER_INCH -
      m.right * App.PTS_PER_INCH)
    (hh : 0 < th * App.PTS_PER_INCH - m.top * App.PTS_PER_INCH -
      m.bottom * App.PTS_PER_INCH)
    (how : (App.computeLayout page tw th b m).orig_w ≠ 0)
    (hoh : (App.computeLayout page tw th b m).orig_h ≠ 0) :
    (App.process_page page tw th b m bgc bgs flip).map
        (fun cp => (cp.mediaBox, cp.trimBox, cp.bleedBox, cp.cropBox, cp.rotate)) =
      .ok (⟨0, 0, tw * App.PTS_PER_INCH + 2 * (b * App.PTS_PER_INCH),
              th * App.PTS_PER_INCH + 2 * (b * App.PTS_PER_INCH)⟩,
           ⟨b * App.PTS_PER_INCH, b * App.PTS_PER_INCH,
              b * App.PTS_PER_INCH + tw * App.PTS_PER_INCH,
              b * App.PTS_PER_INCH + th * App.PTS_PER_INCH⟩,
           ⟨0, 0, tw * App.PTS_PER_INCH + 2 * (b * App.PTS_PER_INCH),
              th * App.PTS_PER_INCH + 2 * (b * App.PTS_PER_INCH)⟩,
           none, none) ∧
    (∀ cp : ComposedPage, App.process_page page tw th b m bgc bgs flip = .ok cp →
      cp.mediaBox.x1 - cp.mediaBox.x0 =
        (cp.trimBox.x1 - cp.trimBox.x0) + 2 * (b * App.PTS_PER_INCH) ∧
      cp.mediaBox.y1 - cp.mediaBox.y0 =
        (cp.trimBox.y1 - cp.trimBox.y0) + 2 * (b * App.PTS_PER_INCH) ∧
      cp.bleedBox = cp.mediaBox) ∧
    (App.blankComposed tw th b).mediaBox =
      ⟨0, 0, tw * App.PTS_PER_INCH + 2 * (b * App.PTS_PER_INCH),
        th * App.PTS_PER_INCH + 2 * (b * App.PTS_PER_INCH)⟩ ∧
    (App.blankComposed tw th b).trimBox =
      ⟨b * App.PTS_PER_INCH, b * App.PTS_PER_INCH,
        b * App.PTS_PER_INCH + tw * App.PTS_PER_INCH,
        b * App.PTS_PER_INCH + th * App.PTS_PER_INCH⟩ ∧
    (App.blankComposed tw th b).bleedBox = (App.blankComposed tw th b).mediaBox ∧
    (App.blankComposed tw th b).cropBox = none ∧
    (App.blankComposed tw th b).rotate = none := by
  have hA : ¬ ((App.computeLayout page tw th b m).safe_w ≤ 0 ∨
      (App.computeLayout page tw th b m).safe_h ≤ 0) := by
    rw [not_or]
    exact ⟨not_le.mpr hw, not_le.mpr hh⟩
  have hB : ¬ ((App.computeLayout page tw th b m).orig_w = 0 ∨
      (App.computeLayout page tw th b m).orig_h = 0) := by
    rw [not_or]
    exact ⟨how, hoh⟩
  refine ⟨?_, ?_, rfl, rfl, rfl, rfl, rfl⟩
  · simp only [App.process_page]
    rw [if_neg hA, if_neg hB]
    rfl
  · intro cp hcp
    simp only [App.process_page] at hcp
    rw [if_neg hA, if_neg hB] at hcp
    rw [Except.ok.injEq] at hcp
    subst hcp
    refine ⟨?_, ?_, rfl⟩
    · show tw * App.PTS_PER_INCH + 2 * (b * App.PTS_PER_INCH) - 0 =
        (b * App.PTS_PER_INCH + tw * App.PTS_PER_INCH - b * App.PTS_PER_INCH) +
          2 * (b * App.PTS_PER_INCH)
      ring
    · show th * App.PTS_PER_INCH + 2 * (b * App.PTS_PER_INCH) - 0 =
        (b * App.PTS_PER_INCH + th * App.PTS_PER_INCH - b * App.PTS_PER_INCH) +
          2 * (b * App.PTS_PER_INCH)
      ring

/-- C2, witness: a 720x405 page composed at trim 10.5 x 6 inches with 1/8
    inch bleed and the default margins gets MediaBox [0 0 774 450], TrimBox
    [9 9 765 441], BleedBox = MediaBox, and no CropBox or Rotate. -/
theorem c2_composed_page_boxes_witness :
    (App.process_page ⟨⟨0, 0, 720, 405⟩, none, none, none, none, none⟩
        (21/2) 6 (1/8) ⟨1/4, 1/4, 1/2, 1/2⟩ none .auto false).map
        (fun cp => (cp.mediaBox, cp.trimBox, cp.bleedBox, cp.cropBox, cp.rotate)) =
      .ok (⟨0, 0, 774, 450⟩, ⟨9, 9, 765, 441⟩, ⟨0, 0, 774, 450⟩, none, none) := by
  have h := c2_composed_page_boxes
    ⟨⟨0, 0, 720, 405⟩, none, none, none, none, none⟩
    (21/2) 6 (1/8) ⟨1/4, 1/4, 1/2, 1/2⟩ none .auto false
    (by with_unfolding_all decide) (by with_unfolding_all decide)
    (by with_unfolding_all decide) (by with_unfolding_all decide)
  rw [h.1]
  norm_num [App.PTS_PER_INCH, Prod.ext_iff, Rect.mk.injEq]

/-! ## C6 -/

/-- A composed page records exactly the flip flag it was composed with. -/
theorem process_page_ok_flipped {page : Page} {tw th b : ℚ} {m : Margins}
    {bgc : Option (ℚ × ℚ × ℚ)} {bgs : BgStyle} {flip : Bool} {cp : ComposedPage}
    (h : App.process_page page tw th b m bgc bgs flip = Except.ok cp) :
    cp.flipped = flip := by
  simp only [App.process_page] at h
  split at h
  · simp at h
  · split at h
    · simp at h
    · rw [Except.ok.injEq] at h
      subst h
      rfl

/-- In the per-page loop, the page at offset `j` from start index `i` is
    composed with the duplex flag of absolute index `i + j`. -/
theorem composeAll_flipped (tw th b : ℚ) (m : Margins) (bg : BgStyle) (fe : Bool) :
    ∀ (doc : List App.DocPage) (i : ℕ) (outs : List ComposedPage),
      App.composeAll tw th b m bg fe i doc = .ok outs →
      ∀ (j : ℕ) (hj : j < outs.length),
        (outs.get ⟨j, hj⟩).flipped = (fe && decide ((i + j) % 2 = 1)) := by
  intro doc
  induction doc with
  | nil =>
    intro i outs h j hj
    simp only [App.composeAll] at h
    rw [Except.ok.injEq] at h
    subst h
    simp at hj
  | cons hd tl ih =>
    intro i outs h j hj
    cases hd with
    | blank bp =>
      simp only [App.composeAll] at h
      split at h
      · simp at h
      · rename_i rest_out hrec
        rw [Except.ok.injEq] at h
        subst h
        cases j with
        | zero => simp
        | succ j' =>
          have hj' : j' < rest_out.length := by simpa using hj
          have := ih (i + 1) rest_out hrec j' hj'
          have harith : i + 1 + j' = i + (j' + 1) := by omega
          simpa [harith] using this
    | orig p =>
      simp only [App.composeAll] at h
      split at h
      · simp at h
      · rename_i cp hp
        split at h
        · simp at h
        · rename_i rest_out hrec
          rw [Except.ok.injEq] at h
          subst h
          cases j with
          | zero => simpa using process_page_ok_flipped hp
          | succ j' =>
            have hj' : j' < rest_out.length := by simpa using hj
            have := ih (i + 1) rest_out hrec j' hj'
            have harith : i + 1 + j' = i + (j' + 1) := by omega
            simpa [harith] using this

/-- C6: with duplex mode on, a final page is composed flipped exactly when
    its 0-based index is odd; the flip opens one 180-degree-about-centre
    transform `-1 0 0 -1 mediaW mediaH cm` that encloses the entire
    unflipped stream (background, relocated content and crop marks) before
    the closing `Q`; and the inserted blank page receives the lighter
    existing-page re-wrap instead of full composition. -/
theorem c6_duplex_flip :
    (∀ (page : Page) (tw th b : ℚ) (m : Margins) (bgc : Option (ℚ × ℚ × ℚ))
        (bgs : BgStyle),
      App.process_page page tw th b m bgc bgs true =
        (App.process_page page tw th b m bgc bgs false).map
          (fun cp => { cp with
            ops := "q" :: App.flip_cm_line
                (tw * App.PTS_PER_INCH + 2 * (b * App.PTS_PER_INCH))
                (th * App.PTS_PER_INCH + 2 * (b * App.PTS_PER_INCH)) ::
              cp.ops ++ ["Q"],
            flipped := true })) ∧
    (∀ (pages : List Page) (tw b : ℚ) (m : Margins) (bgs : BgStyle) (ib : Bool)
        (dels : List ℤ) (outs : List ComposedPage),
      App.processPdfFileRun pages tw b m bgs ib dels true = .ok outs →
      ∀ (j : ℕ) (hj : j < outs.length),
        (outs.get ⟨j, hj⟩).flipped = decide (j % 2 = 1)) ∧
    (∀ (tw th b : ℚ) (m : Margins) (bgs : BgStyle) (bp : ComposedPage)
        (rest : List App.DocPage) (i : ℕ), i % 2 = 1 →
      App.composeAll tw th b m bgs true i (App.DocPage.blank bp :: rest) =
        (App.composeAll tw th b m bgs true (i + 1) rest).map
          (fun os => { App.flip_existing_page
              (tw * App.PTS_PER_INCH + 2 * (b * App.PTS_PER_INCH))
              (th * App.PTS_PER_INCH + 2 * (b * App.PTS_PER_INCH)) bp
              with flipped := true } :: os)) := by
  refine ⟨?_, ?_, ?_⟩
  · intro page tw th b m bgc bgs
    have em : (App.computeLayout page tw th b m).media_w =
        tw * App.PTS_PER_INCH + 2 * (b * App.PTS_PER_INCH) := rfl
    have eh : (App.computeLayout page tw th b m).media_h =
        th * App.PTS_PER_INCH + 2 * (b * App.PTS_PER_INCH) := rfl
    by_cases hA : (App.computeLayout page tw th b m).safe_w ≤ 0 ∨
        (App.computeLayout page tw th b m).safe_h ≤ 0
    · simp [App.process_page, hA, Except.map]
    · by_cases hB : (App.computeLayout page tw th b m).orig_w = 0 ∨
          (App.computeLayout page tw th b m).orig_h = 0
      · simp [App.process_page, hA, hB, Except.map]
      · simp [App.process_page, hA, hB, Except.map, em, eh, List.append_assoc]
  · intro pages tw b m bgs ib dels outs h j hj
    simp only [App.processPdfFileRun] at h
    split at h
    · simp at h
    · rename_i first rest
      split at h
      · simp at h
      · rename_i th2 hth
        have := composeAll_flipped tw th2 b m bgs true _ 0 outs h j hj
        simpa using this
  · intro tw th b m bgs bp rest i hi
    cases hrec : App.composeAll tw th b m bgs true (i + 1) rest with
    | error e => simp [App.composeAll, hi, hrec, Except.map]
    | ok os => simp [App.composeAll, hi, hrec, Except.map]

/-- C6, witness: at odd index 1 the loop takes the lighter
    existing-page-flip path for the inserted blank. -/
theorem c6_duplex_flip_witness :
    App.composeAll 1 1 0 ⟨0, 0, 0, 0⟩ .auto true 1
        [App.DocPage.blank (App.blankComposed 1 1 0)] =
      (App.composeAll 1 1 0 ⟨0, 0, 0, 0⟩ .auto true 2 []).map
        (fun os => { App.flip_existing_page
            (1 * App.PTS_PER_INCH + 2 * (0 * App.PTS_PER_INCH))
            (1 * App.PTS_PER_INCH + 2 * (0 * App.PTS_PER_INCH))
            (App.blankComposed 1 1 0)
            with flipped := true } :: os) :=
  c6_duplex_flip.2.2 1 1 0 ⟨0, 0, 0, 0⟩ .auto (App.blankComposed 1 1 0) [] 1 rfl

/-! ## C5 -/

/-- If every index of the delete list lies strictly below the running index,
    every page survives. -/
theorem survivingPages_keep_all (dels : List ℤ) :
    ∀ (ps : List Page) (i : ℕ), (∀ x ∈ dels, x < (i : ℤ)) →
      App.survivingPages dels i ps = ps := by
  intro ps
  induction ps with
  | nil => intro i _; rfl
  | cons p rest ih =>
    intro i h
    have hni : (i : ℤ) ∉ dels := fun hm => absurd (h _ hm) (lt_irrefl _)
    simp only [App.survivingPages, if_neg hni]
    rw [ih (i + 1) (fun x hx => by have := h x hx; push_cast; omega)]

/-- The surviving pages depend only on which in-range indices are in the
    delete set. -/
theorem survivingPages_congr {d1 d2 : List ℤ} :
    ∀ (ps : List Page) (i : ℕ),
      (∀ j : ℕ, i ≤ j → j < i + ps.length → ((j : ℤ) ∈ d1 ↔ (j : ℤ) ∈ d2)) →
      App.survivingPages d1 i ps = App.survivingPages d2 i ps := by
  intro ps
  induction ps with
  | nil => intro i _; rfl
  | cons p rest ih =>
    intro i h
    have hiff : ((i : ℤ) ∈ d1 ↔ (i : ℤ) ∈ d2) :=
      h i le_rfl (by simp only [List.length_cons]; omega)
    have hrest := ih (i + 1) (fun j h1 h2 => h j (by omega)
      (by simp only [List.length_cons]; omega))
    simp only [App.survivingPages]
    rw [if_congr hiff rfl rfl, hrest]

/-- Erasing the page at in-range index `i + k` has, on the survivors, the
    same effect as adding `i + k` to the delete set, provided every index
    already in the set is smaller. -/
theorem survivingPages_eraseIdx (d : List ℤ) :
    ∀ (ps : List Page) (k i : ℕ), k < ps.length →
      (∀ x ∈ d, x < ((i + k : ℕ) : ℤ)) →
      App.survivingPages d i (ps.eraseIdx k) =
        App.survivingPages (((i + k : ℕ) : ℤ) :: d) i ps := by
  intro ps
  induction ps with
  | nil => intro k i hk; intro _; simp at hk
  | cons p rest ih =>
    intro k i hk hd
    cases k with
    | zero =>
      simp only [Nat.add_zero] at hd ⊢
      simp only [List.eraseIdx_cons_zero]
      rw [survivingPages_keep_all d rest i hd]
      simp only [App.survivingPages]
      rw [if_pos (List.mem_cons_self _ _)]
      rw [survivingPages_keep_all _ rest (i + 1) ?bound]
      case bound =>
        intro x hx
        rcases List.mem_cons.mp hx with h | h
        · subst h; push_cast; omega
        · have := hd x h; push_cast at this ⊢; omega
    | succ k' =>
      have hk' : k' < rest.length := by
        simp only [List.length_cons] at hk; omega
      have harith : ((i + (k' + 1) : ℕ) : ℤ) = (((i + 1) + k' : ℕ) : ℤ) := by
        push_cast; ring
      have hne : (i : ℤ) ≠ ((i + (k' + 1) : ℕ) : ℤ) := by push_cast; omega
      simp only [List.eraseIdx_cons_succ]
      simp only [App.survivingPages]
      have hcond : ((i : ℤ) ∈ d) ↔ ((i : ℤ) ∈ ((i + (k' + 1) : ℕ) : ℤ) :: d) := by
        constructor
        · exact fun hmem => List.mem_cons_of_mem _ hmem
        · intro hmem
          rcases List.mem_cons.mp hmem with h | h
          · exact absurd h hne
          · exact h
      have hd' : ∀ x ∈ d, x < (((i + 1) + k' : ℕ) : ℤ) := by
        intro x hx
        have := hd x hx
        push_cast at this ⊢
        omega
      have hbody : App.survivingPages d (i + 1) (rest.eraseIdx k') =
          App.survivingPages (((i + (k' + 1) : ℕ) : ℤ) :: d) (i + 1) rest := by
        rw [ih k' (i + 1) hk' hd', harith]
      exact if_congr hcond hbody (by rw [hbody])

/-- The descending deletion loop of `process_pdf_file` computes exactly the
    pages whose 0-based indices are not in the (strictly descending) list of
    indices. -/
theorem deleteLoop_eq :
    ∀ ds : List ℤ, List.Pairwise (fun a b => b < a) ds →
      ∀ ps : List Page, ds.foldl App.deleteStep ps = App.survivingPages ds 0 ps := by
  intro ds
  induction ds with
  | nil =>
    intro _ ps
    simp only [List.foldl_nil]
    exact (survivingPages_keep_all [] ps 0 (by simp)).symm
  | cons d tl ih =>
    intro hp ps
    have hall : ∀ x ∈ tl, x < d := (List.pairwise_cons.mp hp).1
    have htl := (List.pairwise_cons.mp hp).2
    simp only [List.foldl_cons]
    rw [ih htl]
    by_cases hv : 0 ≤ d ∧ d < (ps.length : ℤ)
    · have hk : d.toNat < ps.length := by omega
      rw [show App.deleteStep ps d = ps.eraseIdx d.toNat from by
        simp [App.deleteStep, hv]]
      rw [survivingPages_eraseIdx tl ps d.toNat 0 hk
        (fun x hx => by have := hall x hx; omega)]
      have hcast : ((0 + d.toNat : ℕ) : ℤ) = d := by omega
      rw [hcast]
    · rw [show App.deleteStep ps d = ps from by simp [App.deleteStep, hv]]
      apply survivingPages_congr
      intro j h1 h2
      have hj : (j : ℤ) ≠ d := by
        rcases not_and_or.mp hv with h | h
        · have : d < 0 := by omega
          omega
        · have : (ps.length : ℤ) ≤ d := by omega
          omega
      simp [List.mem_cons, hj]

/-- The full deletion phase (dedup, sort descending, delete valid indices)
    keeps exactly the pages whose original 0-based index is not in the
    requested delete list, in their original order. -/
theorem deletePages_eq (ps : List Page) (dels : List ℤ) :
    App.deletePages ps dels = App.survivingPages dels 0 ps := by
  unfold App.deletePages
  have hperm := List.mergeSort_perm dels.dedup (fun a b => decide (b ≤ a))
  have hsorted : List.Pairwise (fun a b : ℤ => b ≤ a)
      (List.mergeSort dels.dedup (fun a b => decide (b ≤ a))) := by
    have h := @List.sorted_mergeSort ℤ (fun a b => decide (b ≤ a))
      (by intro a b c hab hbc
          simp only [decide_eq_true_eq] at hab hbc ⊢
          omega)
      (by intro a b
          rcases le_total b a with h | h <;> simp [h])
      dels.dedup
    exact h.imp (fun hx => of_decide_eq_true hx)
  have hnodup : (List.mergeSort dels.dedup (fun a b => decide (b ≤ a))).Nodup :=
    hperm.nodup_iff.mpr (List.nodup_dedup dels)
  have hgt : List.Pairwise (fun a b : ℤ => b < a)
      (List.mergeSort dels.dedup (fun a b => decide (b ≤ a))) :=
    (hsorted.and hnodup).imp (fun h => lt_of_le_of_ne h.1 (Ne.symm h.2))
  rw [deleteLoop_eq _ hgt ps]
  apply survivingPages_congr
  intro j _ _
  rw [List.mem_mergeSort, List.mem_dedup]

/-- C5: the document assembler's deletion phase keeps exactly the pages
    whose original 0-based indices are not in the (deduplicated) delete set,
    in their original order, and a run whose deletion phase empties the
    document fails with DocumentEmptyError, producing no output. -/
theorem c5_deletion_semantics :
    (∀ (ps : List Page) (dels : List ℤ),
      App.deletePages ps dels = App.survivingPages dels 0 ps) ∧
    (∀ (ps : List Page) (tw b : ℚ) (m : Margins) (bgs : BgStyle) (ib : Bool)
        (dels : List ℤ) (fe : Bool),
      App.deletePages ps dels = [] →
      App.processPdfFile ps tw b m bgs ib dels fe = (none, .error .emptyError)) := by
  refine ⟨deletePages_eq, ?_⟩
  intro ps tw b m bgs ib dels fe h
  simp [App.processPdfFile, App.processPdfFileRun, h]

/-- C5, witness: deleting every index of a one-page document leaves no
    survivors and the run fails with DocumentEmptyError without output. -/
theorem c5_deletion_witness :
    App.deletePages [⟨⟨0, 0, 720, 405⟩, none, none, none, none, none⟩] [0] =
      App.survivingPages [0] 0
        [⟨⟨0, 0, 720, 405⟩, none, none, none, none, none⟩] ∧
    App.survivingPages [0] 0
        [⟨⟨0, 0, 720, 405⟩, none, none, none, none, none⟩] = [] ∧
    App.processPdfFile [⟨⟨0, 0, 720, 405⟩, none, none, none, none, none⟩]
        (21/2) (1/8) ⟨1/4, 1/4, 1/2, 1/2⟩ .auto false [0] true =
      (none, .error .emptyError) := by
  refine ⟨c5_deletion_semantics.1 _ _, by with_unfolding_all decide, ?_⟩
  exact c5_deletion_semantics.2 _ _ _ _ _ _ _ _ (by with_unfolding_all decide)
